import Mathlib

/-!
Shallow embedding of the geoips remote-archive acquisition and extraction
core, together with theorems checking the repository specification against
the code.

Sources embedded here:
- src/geoips/commandline/geoips_config.py (GeoipsConfigInstall:
  test_dataset_dict, __call__, download_extract_test_data,
  extract_data_cautiously);
- src/setup/download_test_data.py (download_from_git,
  download_and_extract_compressed_tar, main dispatch);
- src/geoips/commandline/geoips_validate.py (GeoipsValidate.validate,
  the try/except around the interface/name lookups).

Paths are modeled as lists of characters.  Python path functions used by
the code (posixpath.join, posixpath.normpath, posixpath.abspath and
str.startswith / the `in` substring test) are embedded structurally below,
following the CPython implementations.
-/

namespace Geoips

/-- Boolean test that `a` is a leading run of `b`; this is `b.startswith(a)`
in Python when both are strings. -/
def isLeadingOf {α : Type} [DecidableEq α] : List α → List α → Bool
  | [], _ => true
  | _ :: _, [] => false
  | x :: xs, y :: ys => decide (x = y) && isLeadingOf xs ys

/-- Boolean test that `a` occurs contiguously inside `b`; this is
`a in b` in Python when both are strings. -/
def occursIn {α : Type} [DecidableEq α] (a : List α) : List α → Bool
  | [] => isLeadingOf a []
  | b :: bs => isLeadingOf a (b :: bs) || occursIn a bs

/-- Split on the slash character, following Python `str.split("/")`:
the result always has one more element than the number of slashes. -/
def splitOnSlash : List Char → List (List Char)
  | [] => [[]]
  | c :: rest =>
    if c = '/' then [] :: splitOnSlash rest
    else
      match splitOnSlash rest with
      | [] => [[c]]
      | h :: t => (c :: h) :: t

/-- Join components with single slashes, following Python `"/".join(...)`. -/
def joinSlash : List (List Char) → List Char
  | [] => []
  | [x] => x
  | x :: y :: t => x ++ '/' :: joinSlash (y :: t)

/-- posixpath.join restricted to two arguments, as the source calls it:
an absolute second argument replaces the first, otherwise a single
separator is inserted unless the first part is empty or already ends in
one.  No traversal is resolved here. -/
def pjoin (a b : List Char) : List Char :=
  if isLeadingOf ['/'] b then b
  else if a = [] ∨ a.getLast? = some '/' then a ++ b
  else a ++ '/' :: b

/-- Component loop of posixpath.normpath.  `acc` holds the accepted
components in reverse order, so `acc.head?` is Python's `new_comps[-1]`;
`slashes` is the number of leading slashes kept on the result. -/
def normComps (slashes : Nat) : List (List Char) → List (List Char) → List (List Char)
  | acc, [] => acc.reverse
  | acc, comp :: rest =>
    if comp = [] ∨ comp = ['.'] then normComps slashes acc rest
    else if comp ≠ ['.', '.'] ∨ (slashes = 0 ∧ acc = []) ∨ acc.head? = some ['.', '.'] then
      normComps slashes (comp :: acc) rest
    else
      match acc with
      | [] => normComps slashes [] rest
      | _ :: t => normComps slashes t rest

/-- posixpath.normpath: collapse empty and `.` components, resolve `..`
against preceding components, keep one leading slash (or exactly two for
the POSIX double-slash special case). -/
def normpath (p : List Char) : List Char :=
  if p = [] then ['.']
  else
    let slashes : Nat :=
      if isLeadingOf ['/'] p then
        if isLeadingOf ['/', '/'] p ∧ ¬ isLeadingOf ['/', '/', '/'] p then 2 else 1
      else 0
    let res := List.replicate slashes '/' ++ joinSlash (normComps slashes [] (splitOnSlash p))
    if res = [] then ['.'] else res

/-- posixpath.abspath relative to a current working directory `cwd`:
prepend `cwd` when the path is not absolute, then normalize. -/
def abspath (cwd p : List Char) : List Char :=
  if isLeadingOf ['/'] p then normpath p else normpath (pjoin cwd p)

/-- Containment test applied to each archive member by
GeoipsConfigInstall.extract_data_cautiously (geoips_config.py line 126):
`abspath(join(download_dir, m.name)).startswith(download_dir)`. -/
def isContained (cwd download_dir name : List Char) : Bool :=
  isLeadingOf download_dir (abspath cwd (pjoin download_dir name))

/-- One entry of a tar archive stream, carrying the raw member path string
stored in the archive and the member's byte content.  The claims under
check concern regular-file members, so no kind flag is modeled. -/
structure TarMember where
  name : List Char
  content : List Char
  deriving DecidableEq

/-- Result of extract_data_cautiously.  `written` lists the resolved
filesystem locations written, in extraction order, with their contents.
`retval` is the Python return value of the function: the source has no
return statement, so on success it returns None, modeled as `none`.
`aborted` models the `raise SystemExit("Found unsafe filepath in tar,
exiting now.")` branch: members written before the offending one remain
listed, and `badName` is the offending member path. -/
inductive ExtractResult where
  | ok (written : List (List Char × List Char)) (retval : Option Nat)
  | aborted (written : List (List Char × List Char)) (badName : List Char)
  deriving DecidableEq

/-- Member loop of extract_data_cautiously: each member is checked with
`isContained` and, when accepted, `tar.extract(m, path=download_dir)`
writes it at the resolved location of join(download_dir, m.name). -/
def extractLoop (cwd dir : List Char) (acc : List (List Char × List Char)) :
    List TarMember → ExtractResult
  | [] => .ok acc.reverse none
  | m :: rest =>
    if isContained cwd dir m.name then
      extractLoop cwd dir ((abspath cwd (pjoin dir m.name), m.content) :: acc) rest
    else .aborted acc.reverse m.name

/-- GeoipsConfigInstall.extract_data_cautiously (geoips_config.py
lines 106-128), applied to the members of the archive stream in order. -/
def extract_data_cautiously (cwd dir : List Char) (members : List TarMember) : ExtractResult :=
  extractLoop cwd dir [] members

/-- Locations written by an extraction, whether it completed or aborted. -/
def writtenOf : ExtractResult → List (List Char × List Char)
  | .ok ws _ => ws
  | .aborted ws _ => ws

/-- Python return value of extract_data_cautiously on the success branch. -/
def okRetval : ExtractResult → Option Nat
  | .ok _ r => r
  | .aborted _ _ => none

/-- An HTTP request as issued through requests.get: the url, whether
`stream=True` was passed, and the `timeout` argument when present. -/
structure HttpRequest where
  url : List Char
  stream : Bool
  timeout : Option Nat
  deriving DecidableEq

/-- An HTTP response: the status code, and the archive members decoded
from the raw body stream when it is consumed as a compressed tar. -/
structure HttpResponse where
  statusCode : Nat
  raw : List TarMember
  deriving DecidableEq

/-- Outcome of download_extract_test_data: either extraction ran on the
response stream, or the non-200 branch called subcommand error reporting
with the status code and no extraction was performed. -/
inductive DownloadResult where
  | extracted (r : ExtractResult)
  | statusError (code : Nat)
  deriving DecidableEq

/-- GeoipsConfigInstall.download_extract_test_data (geoips_config.py
lines 85-104): `requests.get(url, stream=True, timeout=15)`, then
extraction exactly when the status code equals 200.  `respond` stands for
the network; the request actually issued is returned alongside the
result. -/
def download_extract_test_data (cwd url dir : List Char)
    (respond : HttpRequest → HttpResponse) : HttpRequest × DownloadResult :=
  let req : HttpRequest := { url := url, stream := true, timeout := some 15 }
  let resp := respond req
  (req,
    if resp.statusCode = 200 then .extracted (extract_data_cautiously cwd dir resp.raw)
    else .statusError resp.statusCode)

/-- Static catalog GeoipsConfigInstall.test_dataset_dict (geoips_config.py
lines 30-42). -/
def test_dataset_dict : List (List Char × List Char) :=
  [("test_data_viirs".data,
    "https://io.cira.colostate.edu/s/mQ2HbE2Js4E9rba/download/test_data_viirs.tgz".data),
   ("test_data_smap".data,
    "https://io.cira.colostate.edu/s/CezXWwXg4qR2b94/download/test_data_smap.tgz".data),
   ("test_data_scat".data,
    "https://io.cira.colostate.edu/s/HyHLZ9F8bnfcTcd/download/test_data_scat.tgz".data),
   ("test_data_sar".data,
    "https://io.cira.colostate.edu/s/snxx8S5sQL3AL7f/download/test_data_sar.tgz".data),
   ("test_data_noaa_aws".data,
    "https://io.cira.colostate.edu/s/fkiPS3jyrQGqgPN/download/test_data_noaa_aws.tgz".data),
   ("test_data_gpm".data,
    "https://io.cira.colostate.edu/s/LT92NiFSA8ZSNDP/download/test_data_gpm.tgz".data),
   ("test_data_fusion".data,
    "https://io.cira.colostate.edu/s/DSz2nZsiPMDeLEP/download/test_data_fusion.tgz".data),
   ("test_data_clavrx".data,
    "https://io.cira.colostate.edu/s/ACLKdS2Cpgd2qkc/download/test_data_clavrx.tgz".data),
   ("test_data_amsr2".data,
    "https://io.cira.colostate.edu/s/FmWwX2ft7KDQ8N9/download/test_data_amsr2.tgz".data)]

/-- Association-list lookup mirroring `test_dataset_dict[name]` on a dict
with unique keys. -/
def lookupUrl (dict : List (List Char × List Char)) (name : List Char) : Option (List Char) :=
  match dict.find? (fun e => decide (e.1 = name)) with
  | some e => some e.2
  | none => none

/-- Outcome of one `geoips config install <name>` invocation.
`keyError` models `self.test_dataset_dict[test_dataset_name]` failing on a
name outside the catalog (argparse choices prevent this in practice);
`alreadyPresent` is the branch taken when the name is in
`listdir(geoips_testdata_dir)`, whose message points at
join(dir, name); `installed` carries the request issued and the download
result, with the final path printed as `f"{dir}/{name}/"`. -/
inductive InstallOutcome where
  | keyError
  | alreadyPresent (finalPath : List Char)
  | installed (finalPath : List Char) (req : HttpRequest) (dl : DownloadResult)
  deriving DecidableEq

/-- GeoipsConfigInstall.__call__ (geoips_config.py lines 60-83): resolve
the url from the catalog, then either report the dataset as already
present (when `name` appears in the directory listing of `dir`) without
any network access, or run download_extract_test_data. -/
def geoips_config_install (cwd name dir : List Char) (listing : List (List Char))
    (respond : HttpRequest → HttpResponse) : InstallOutcome :=
  match lookupUrl test_dataset_dict name with
  | none => .keyError
  | some url =>
    if name ∈ listing then .alreadyPresent (pjoin dir name)
    else
      let rd := download_extract_test_data cwd url dir respond
      .installed (dir ++ '/' :: (name ++ ['/'])) rd.1 rd.2

/-- Network requests performed during one install invocation. -/
def requestsMade : InstallOutcome → List HttpRequest
  | .installed _ req _ => [req]
  | _ => []

/-- Outcome of download_and_extract_compressed_tar.  `httpError` models
`r.raise_for_status()` raising (status 400-599), printed and re-raised by
the handler; `openDestFailed` models `open(dest, "wb")` raising
IsADirectoryError because the destination names an existing directory;
`writeMemberFailed` models `tar.extractall(path=dest)` raising
NotADirectoryError at its first relative-named member, whose target lies
below `dest` just created as a regular file - the members already written
before it (absolute-named ones) are carried along with the failing member
path; `extracted` is reached when every member was written. -/
inductive TarFetchResult where
  | httpError (code : Nat)
  | openDestFailed
  | writeMemberFailed (written : List (List Char × List Char)) (name : List Char)
  | extracted (written : List (List Char × List Char))
  deriving DecidableEq

/-- Unfiltered `tar.extractall(path=dest)` run after `open(dest, "wb")`
has created `dest` as a regular file.  Each member's target is
os.path.join(dest, member.name): for a member whose stored name is
absolute the join returns that name itself and the write succeeds at the
member's own absolute location (intermediate directories are created as
needed), while the first member with a relative name raises
NotADirectoryError, since its target lies below the regular file `dest`,
aborting the remaining members.  Member names are taken to be nonempty
path strings as stored in a tar header. -/
def extractallOverFile (cwd dest : List Char) (acc : List (List Char × List Char)) :
    List TarMember → TarFetchResult
  | [] => .extracted acc.reverse
  | m :: rest =>
    if isLeadingOf ['/'] m.name then
      extractallOverFile cwd dest ((abspath cwd (pjoin dest m.name), m.content) :: acc) rest
    else .writeMemberFailed acc.reverse m.name

/-- download_and_extract_compressed_tar (download_test_data.py lines
44-62): `requests.get(url, stream=True)` with no timeout argument, then
`raise_for_status()`, then `open(dest, "wb")`, then
`tar.extractall(path=dest)` with no per-member containment check.
`destIsDir` records whether `dest` names an existing directory; when it
does not, the open call creates `dest` as a regular file and extraction
runs over it as modeled by extractallOverFile. -/
def download_and_extract_compressed_tar (cwd url dest : List Char) (destIsDir : Bool)
    (respond : HttpRequest → HttpResponse) : HttpRequest × TarFetchResult :=
  let req : HttpRequest := { url := url, stream := true, timeout := none }
  let resp := respond req
  (req,
    if 400 ≤ resp.statusCode ∧ resp.statusCode < 600 then .httpError resp.statusCode
    else if destIsDir then .openDestFailed
    else extractallOverFile cwd dest [] resp.raw)

/-- Archive-member locations written by the raw-url fetch path, whether
its extraction completed or aborted mid-archive. -/
def writtenOfTar : TarFetchResult → List (List Char × List Char)
  | .extracted ws => ws
  | .writeMemberFailed ws _ => ws
  | _ => []

/-- Discriminator for the already-present install outcome. -/
def isAlreadyPresent : InstallOutcome → Bool
  | .alreadyPresent _ => true
  | _ => false

/-- Branch selected by main() of download_test_data.py. -/
inductive MainBranch where
  | gitClone
  | tarFetchExtract
  | unsupportedUrlMessage
  deriving DecidableEq

/-- Dispatch in main() (download_test_data.py lines 81-88): the clone
branch when `".git" in url`, else the fetch-and-extract branch when
`".tgz" in url`, else the cannot-handle error message. -/
def main_dispatch (url : List Char) : MainBranch :=
  if occursIn ".git".data url then .gitClone
  else if occursIn ".tgz".data url then .tarFetchExtract
  else .unsupportedUrlMessage

/-- Python exception classes involved in GeoipsValidate.validate. -/
inductive PyExc where
  | keyError
  | attributeError
  deriving DecidableEq

/-- Python `or` applied to two exception class objects: a class object is
truthy, so the expression evaluates to its first operand.  This is the
value of the clause expression `AttributeError or KeyError`. -/
def pyOrClasses (a b : PyExc) : PyExc := a

/-- A loaded plugin, abstracted as its named fields: module attributes for
a module-based plugin, mapping keys for a yaml-based one. -/
structure PluginData where
  entries : List (List Char × List Char)
  deriving DecidableEq

/-- Field lookup inside a plugin. -/
def lookupEntry (p : PluginData) (k : List Char) : Option (List Char) :=
  match p.entries.find? (fun e => decide (e.1 = k)) with
  | some e => some e.2
  | none => none

/-- Module attribute access `plugin.<k>`: AttributeError when missing. -/
def getattrOf (p : PluginData) (k : List Char) : Except PyExc (List Char) :=
  match lookupEntry p k with
  | some v => .ok v
  | none => .error .attributeError

/-- Mapping subscript `plugin[k]`: KeyError when missing. -/
def getitemOf (p : PluginData) (k : List Char) : Except PyExc (List Char) :=
  match lookupEntry p k with
  | some v => .ok v
  | none => .error .keyError

/-- Body of the try block in GeoipsValidate.validate (geoips_validate.py
lines 45-51): read `interface` then `name`, via attribute access for a
module-based plugin and via subscript for a yaml-based one. -/
def lookupNames (moduleBased : Bool) (p : PluginData) : Except PyExc (List Char × List Char) :=
  if moduleBased then
    match getattrOf p "interface".data with
    | .error e => .error e
    | .ok i =>
      match getattrOf p "name".data with
      | .error e => .error e
      | .ok n => .ok (i, n)
  else
    match getitemOf p "interface".data with
    | .error e => .error e
    | .ok i =>
      match getitemOf p "name".data with
      | .error e => .error e
      | .ok n => .ok (i, n)

/-- Observable outcome of the lookup step of GeoipsValidate.validate:
either the handler reported the typed invalid-plugin message through the
subcommand error call, or an exception escaped uncaught, or both names
were read and validation proceeds. -/
inductive ValidateStep where
  | reportedInvalid
  | uncaught (e : PyExc)
  | proceeds (interfaceName pluginName : List Char)
  deriving DecidableEq

/-- The try/except around the lookups (geoips_validate.py lines 45-55).
The handler clause is written `except AttributeError or KeyError`, so the
caught class is the value of that expression, `pyOrClasses
AttributeError KeyError`; any other exception escapes uncaught. -/
def validateLookupStep (moduleBased : Bool) (p : PluginData) : ValidateStep :=
  match lookupNames moduleBased p with
  | .ok r => .proceeds r.1 r.2
  | .error e =>
    if e = pyOrClasses .attributeError .keyError then .reportedInvalid
    else .uncaught e

/-- Follows the spec's words (section 3, DestinationRoot): a path lies
inside the destinationRoot subtree when it equals the root or extends it
at a path-segment boundary. -/
def specInSubtree (root p : List Char) : Bool :=
  decide (p = root) || isLeadingOf (root ++ ['/']) p

/-- Follows the spec's words (section 4.1): the normalized join of root
and member must have the normalized root as a strict path-segment
prefix.  Stated on the segment lists of the normalized strings. -/
def specIsContained (cwd root m : List Char) : Bool :=
  isLeadingOf (splitOnSlash (normpath root)) (splitOnSlash (abspath cwd (pjoin root m)))
    && !(decide (splitOnSlash (normpath root) = splitOnSlash (abspath cwd (pjoin root m))))

/-- Invariant of the extraction loop: every location it records as written
passes the string-leading test against the download directory, because the
loop checks exactly that test before each write. -/
theorem extractLoop_written_leading (cwd dir : List Char) :
    ∀ (members : List TarMember) (acc : List (List Char × List Char)),
      (∀ q ∈ acc, isLeadingOf dir q.1 = true) →
      ∀ q ∈ writtenOf (extractLoop cwd dir acc members), isLeadingOf dir q.1 = true := by
  intro members
  induction members with
  | nil =>
    intro acc hacc q hq
    simp only [extractLoop, writtenOf, List.mem_reverse] at hq
    exact hacc q hq
  | cons m rest ih =>
    intro acc hacc q hq
    by_cases h : isContained cwd dir m.name = true
    · simp only [extractLoop, h, if_true] at hq
      refine ih _ ?_ q hq
      intro r hr
      rcases List.mem_cons.mp hr with hr | hr
      · rw [hr]
        exact h
      · exact hacc r hr
    · simp only [extractLoop, h, Bool.false_eq_true, if_false, writtenOf,
        List.mem_reverse] at hq
      exact hacc q hq

/-- Invariant of the unfiltered extractall loop over the regular file
`dest`: every location it records as written comes from an
absolute-named member and is the resolved join of `dest` with that
member's stored name, which is the member's own absolute path. -/
theorem extractallOverFile_written (cwd dest : List Char) :
    ∀ (members : List TarMember) (acc : List (List Char × List Char)),
      ∀ q ∈ writtenOfTar (extractallOverFile cwd dest acc members),
        q ∈ acc ∨ ∃ m, m ∈ members ∧ isLeadingOf ['/'] m.name = true ∧
          q = (abspath cwd (pjoin dest m.name), m.content) := by
  intro members
  induction members with
  | nil =>
    intro acc q hq
    simp only [extractallOverFile, writtenOfTar, List.mem_reverse] at hq
    exact Or.inl hq
  | cons m rest ih =>
    intro acc q hq
    by_cases h : isLeadingOf ['/'] m.name = true
    · simp only [extractallOverFile, h, if_true] at hq
      rcases ih _ q hq with hacc | ⟨m2, hm2, habs, hq2⟩
      · rcases List.mem_cons.mp hacc with he | hacc2
        · exact Or.inr ⟨m, List.mem_cons_self m rest, h, he⟩
        · exact Or.inl hacc2
      · exact Or.inr ⟨m2, List.mem_cons_of_mem m hm2, habs, hq2⟩
    · simp only [extractallOverFile, h, Bool.false_eq_true, if_false, writtenOfTar,
        List.mem_reverse] at hq
      exact Or.inl hq

/-- When every member passes the containment test, the extraction loop
completes and writes each member at the resolved join of the download
directory and the member path, in archive order. -/
theorem extractLoop_all_contained (cwd dir : List Char) :
    ∀ (members : List TarMember) (acc : List (List Char × List Char)),
      (∀ m ∈ members, isContained cwd dir m.name = true) →
      extractLoop cwd dir acc members =
        .ok (acc.reverse ++
          members.map (fun m => (abspath cwd (pjoin dir m.name), m.content))) none := by
  intro members
  induction members with
  | nil =>
    intro acc h
    simp [extractLoop]
  | cons m rest ih =>
    intro acc h
    have hm : isContained cwd dir m.name = true := h m (List.mem_cons_self m rest)
    simp only [extractLoop, hm, if_true]
    rw [ih _ (fun x hx => h x (List.mem_cons_of_mem m hx))]
    simp

/-- C1, corrected.  Of the two call sites, only the catalog-name path
checks members before writing, and its check guarantees no more than
this: every location written by extract_data_cautiously has the download
directory as a leading character run of the resolved path.  The raw-url
path (download_and_extract_compressed_tar) applies no per-member check at
all: every archive member it ever writes is one whose stored name is
absolute, written at the resolved join of the destination with that name,
which is the member's own absolute location - no containment in the
destination holds there (relative-named members instead fail against the
destination opened as a regular file). -/
theorem c1_amended :
    (∀ (cwd dir : List Char) (members : List TarMember) (q : List Char × List Char),
        q ∈ writtenOf (extract_data_cautiously cwd dir members) →
        isLeadingOf dir q.1 = true) ∧
    (∀ (cwd url dest : List Char) (destIsDir : Bool)
        (respond : HttpRequest → HttpResponse) (q : List Char × List Char),
        q ∈ writtenOfTar
          (download_and_extract_compressed_tar cwd url dest destIsDir respond).2 →
        ∃ m, m ∈ (respond ⟨url, true, none⟩).raw ∧ isLeadingOf ['/'] m.name = true ∧
          q = (abspath cwd (pjoin dest m.name), m.content)) := by
  constructor
  · intro cwd dir members q hq
    exact extractLoop_written_leading cwd dir members []
      (by intro r hr; cases hr) q hq
  · intro cwd url dest destIsDir respond q hq
    unfold download_and_extract_compressed_tar at hq
    by_cases h : 400 ≤ (respond ⟨url, true, none⟩).statusCode ∧
        (respond ⟨url, true, none⟩).statusCode < 600
    · simp [h, writtenOfTar] at hq
    · cases destIsDir with
      | true => simp [h, writtenOfTar] at hq
      | false =>
        simp only [h, if_false, Bool.false_eq_true] at hq
        rcases extractallOverFile_written cwd dest _ [] q hq with hacc | hex
        · cases hacc
        · exact hex

/-- C1 counterexample: against root `/data`, the member `../data2/f` is
accepted by the containment test of the catalog-name path and written at
`/data2/f`, a location outside the destinationRoot subtree, so not every
path written during extraction lies inside that subtree. -/
theorem c1_counterexample :
    extract_data_cautiously "/".data "/data".data [⟨"../data2/f".data, "Z".data⟩] =
      .ok [("/data2/f".data, "Z".data)] none ∧
    specInSubtree "/data".data "/data2/f".data = false := by decide

/-- C1 witness: the amended theorem applied to a concrete archive on
each path - a relative member written at /data/a.txt on the catalog-name
path, and an absolute-named member on the raw-url path, traced to its
own absolute location /abs/evil. -/
theorem c1_witness :
    isLeadingOf "/data".data "/data/a.txt".data = true ∧
    (∃ m, m ∈ [(⟨"/abs/evil".data, "E".data⟩ : TarMember)] ∧
      isLeadingOf ['/'] m.name = true ∧
      ("/abs/evil".data, "E".data) =
        (abspath "/".data (pjoin "/dest".data m.name), m.content)) :=
  ⟨c1_amended.1 "/".data "/data".data [⟨"a.txt".data, "Z".data⟩]
    ("/data/a.txt".data, "Z".data) (by decide),
   c1_amended.2 "/".data "u".data "/dest".data false
    (fun _ => ⟨200, [⟨"/abs/evil".data, "E".data⟩]⟩)
    ("/abs/evil".data, "E".data) (by decide)⟩

/-- C2, code bug, evaluated at the failing inputs: the containment test
of extract_data_cautiously is a plain string test, so against root
`/data` it accepts the member `../data2/x` (resolving to the sibling
`/data2/x`) and the empty member name, both of which the strict
path-segment containment of the specification rejects. -/
theorem c2_code_evaluation :
    isContained "/".data "/data".data "../data2/x".data = true ∧
    specIsContained "/".data "/data".data "../data2/x".data = false ∧
    isContained "/".data "/data".data [] = true ∧
    specIsContained "/".data "/data".data [] = false := by decide

/-- C3, code bug, evaluated at the failing input: an archive holding the
safe member `ok.txt` followed by `../data2/f`, whose resolved path
escapes root `/data`, is extracted to completion with no abort, and the
second member is written outside the root subtree. -/
theorem c3_code_evaluation :
    extract_data_cautiously "/".data "/data".data
      [⟨"ok.txt".data, "A".data⟩, ⟨"../data2/f".data, "B".data⟩] =
      .ok [("/data/ok.txt".data, "A".data), ("/data2/f".data, "B".data)] none ∧
    specInSubtree "/data".data "/data2/f".data = false := by decide

/-- C4: when the dataset name is a catalog key and an entry of that name
already sits directly under the destination directory, the install call
returns the already-present outcome pointing at the joined existing path
and issues no network request. -/
theorem c4_already_present (cwd name dir : List Char) (listing : List (List Char))
    (respond : HttpRequest → HttpResponse)
    (hname : (lookupUrl test_dataset_dict name).isSome = true)
    (hlist : name ∈ listing) :
    geoips_config_install cwd name dir listing respond = .alreadyPresent (pjoin dir name) ∧
    requestsMade (geoips_config_install cwd name dir listing respond) = [] := by
  cases hu : lookupUrl test_dataset_dict name with
  | none =>
    rw [hu] at hname
    simp at hname
  | some url =>
    constructor
    · simp [geoips_config_install, hu, hlist]
    · simp [geoips_config_install, hu, hlist, requestsMade]

/-- C4 witness: installing test_data_viirs when the listing of the
destination already holds that name. -/
theorem c4_witness :
    geoips_config_install "/".data "test_data_viirs".data "/tdata".data
      ["test_data_viirs".data] (fun _ => ⟨200, []⟩) =
      .alreadyPresent (pjoin "/tdata".data "test_data_viirs".data) ∧
    requestsMade (geoips_config_install "/".data "test_data_viirs".data "/tdata".data
      ["test_data_viirs".data] (fun _ => ⟨200, []⟩)) = [] :=
  c4_already_present _ _ _ _ _ (by decide) (by decide)

/-- C4 counterexample: a first install of test_data_viirs into an empty
destination succeeds but its archive holds only `other.txt`, so the only
entry created directly under /tdata is `other.txt`, not the dataset
name; a second call against that resulting listing is therefore not
already-present and issues a network request, refuting the claim's
consequence that the second of two installs always reports
already-present with no network access. -/
theorem c4_counterexample :
    geoips_config_install "/".data "test_data_viirs".data "/tdata".data []
      (fun _ => ⟨200, [⟨"other.txt".data, "C".data⟩]⟩) =
      .installed "/tdata/test_data_viirs/".data
        ⟨"https://io.cira.colostate.edu/s/mQ2HbE2Js4E9rba/download/test_data_viirs.tgz".data,
          true, some 15⟩
        (.extracted (.ok [("/tdata/other.txt".data, "C".data)] none)) ∧
    isAlreadyPresent (geoips_config_install "/".data "test_data_viirs".data "/tdata".data
      ["other.txt".data] (fun _ => ⟨200, [⟨"other.txt".data, "C".data⟩]⟩)) = false ∧
    requestsMade (geoips_config_install "/".data "test_data_viirs".data "/tdata".data
      ["other.txt".data] (fun _ => ⟨200, [⟨"other.txt".data, "C".data⟩]⟩)) ≠ [] := by decide

/-- C5: download_extract_test_data reports a status error carrying the
response status code, with no extraction, whenever the status differs
from 200, and hands the response stream to extraction exactly when the
status equals 200. -/
theorem c5_status_dispatch :
    (∀ (cwd url dir : List Char) (respond : HttpRequest → HttpResponse),
        (respond ⟨url, true, some 15⟩).statusCode ≠ 200 →
        (download_extract_test_data cwd url dir respond).2 =
          .statusError (respond ⟨url, true, some 15⟩).statusCode) ∧
    (∀ (cwd url dir : List Char) (respond : HttpRequest → HttpResponse),
        (respond ⟨url, true, some 15⟩).statusCode = 200 →
        (download_extract_test_data cwd url dir respond).2 =
          .extracted (extract_data_cautiously cwd dir (respond ⟨url, true, some 15⟩).raw)) := by
  constructor
  · intro cwd url dir respond h
    simp [download_extract_test_data, h]
  · intro cwd url dir respond h
    simp [download_extract_test_data, h]

/-- C5 witness: a 404 response maps to the status-error outcome with code
404 and no extraction; a 200 response maps to extraction of the stream. -/
theorem c5_witness :
    (download_extract_test_data "/".data "https://x".data "/d".data
      (fun _ => ⟨404, []⟩)).2 = .statusError 404 ∧
    (download_extract_test_data "/".data "https://x".data "/d".data
      (fun _ => ⟨200, []⟩)).2 =
      .extracted (extract_data_cautiously "/".data "/d".data []) :=
  ⟨c5_status_dispatch.1 _ _ _ _ (by decide), c5_status_dispatch.2 _ _ _ _ rfl⟩

/-- C6: the main dispatch of download_test_data.py selects the clone
branch whenever `.git` occurs in the reference, otherwise the
fetch-and-extract branch whenever `.tgz` occurs, and otherwise the
cannot-handle failure, in that order. -/
theorem c6_dispatch :
    (∀ url : List Char, occursIn ".git".data url = true → main_dispatch url = .gitClone) ∧
    (∀ url : List Char, occursIn ".git".data url = false →
        occursIn ".tgz".data url = true → main_dispatch url = .tarFetchExtract) ∧
    (∀ url : List Char, occursIn ".git".data url = false →
        occursIn ".tgz".data url = false → main_dispatch url = .unsupportedUrlMessage) := by
  refine ⟨?_, ?_, ?_⟩
  · intro url h
    simp [main_dispatch, h]
  · intro url h1 h2
    simp [main_dispatch, h1, h2]
  · intro url h1 h2
    simp [main_dispatch, h1, h2]

/-- C6 witness: the three reference urls of the claim take the clone,
fetch-and-extract and unsupported branches respectively. -/
theorem c6_witness :
    main_dispatch "https://example.com/x.git".data = .gitClone ∧
    main_dispatch "https://example.com/x.tgz".data = .tarFetchExtract ∧
    main_dispatch "https://example.com/x.zip".data = .unsupportedUrlMessage :=
  ⟨c6_dispatch.1 _ (by decide), c6_dispatch.2.1 _ (by decide) (by decide),
   c6_dispatch.2.2 _ (by decide) (by decide)⟩

/-- C7 counterexample: on the claim's own example archive the extraction
succeeds with both members written, but the operation returns None (the
source has no return statement), not the member count; and an archive
whose only member is `../e` yields an abort, producing none of its
members, so the claim's universal round-trip reading also fails. -/
theorem c7_counterexample :
    okRetval (extract_data_cautiously "/".data "/data".data
      [⟨"a.txt".data, "AA".data⟩, ⟨"sub/b.txt".data, "BB".data⟩]) = none ∧
    extract_data_cautiously "/".data "/data".data
      [⟨"a.txt".data, "AA".data⟩, ⟨"sub/b.txt".data, "BB".data⟩] =
      .ok [("/data/a.txt".data, "AA".data), ("/data/sub/b.txt".data, "BB".data)] none ∧
    extract_data_cautiously "/".data "/data".data [⟨"../e".data, "C".data⟩] =
      .aborted [] "../e".data := by decide

/-- C7, corrected: when every member of the archive passes the
containment test, extraction completes, writing exactly the members at
the resolved joins of root and member path with matching content; the
operation returns None, and the member count is observable only as the
length of the write list. -/
theorem c7_amended (cwd root : List Char) (members : List TarMember)
    (h : ∀ m ∈ members, isContained cwd root m.name = true) :
    extract_data_cautiously cwd root members =
      .ok (members.map (fun m => (abspath cwd (pjoin root m.name), m.content))) none ∧
    (writtenOf (extract_data_cautiously cwd root members)).length = members.length := by
  have he := extractLoop_all_contained cwd root members [] h
  constructor
  · simpa [extract_data_cautiously] using he
  · simp only [extract_data_cautiously, he, writtenOf]
    simp

/-- C7 witness: the amended theorem applied to the two-member archive of
the claim, with both members passing the containment test. -/
theorem c7_witness :
    extract_data_cautiously "/".data "/data".data
      ([⟨"w.txt".data, "W".data⟩, ⟨"sub/v.txt".data, "V".data⟩] : List TarMember) =
      .ok (([⟨"w.txt".data, "W".data⟩, ⟨"sub/v.txt".data, "V".data⟩] : List TarMember).map
        (fun m => (abspath "/".data (pjoin "/data".data m.name), m.content))) none ∧
    (writtenOf (extract_data_cautiously "/".data "/data".data
      ([⟨"w.txt".data, "W".data⟩, ⟨"sub/v.txt".data, "V".data⟩] : List TarMember))).length =
      ([⟨"w.txt".data, "W".data⟩, ⟨"sub/v.txt".data, "V".data⟩] : List TarMember).length :=
  c7_amended _ _ _ (by decide)

/-- C8 counterexample: the streaming GET issued by the raw-url path is
built with no timeout argument at all, so not every streaming GET of the
fetching components carries the 15-unit connection timeout. -/
theorem c8_counterexample :
    (download_and_extract_compressed_tar "/".data "https://example.com/x.tgz".data
      "/dest".data false (fun _ => ⟨200, []⟩)).1.stream = true ∧
    (download_and_extract_compressed_tar "/".data "https://example.com/x.tgz".data
      "/dest".data false (fun _ => ⟨200, []⟩)).1.timeout ≠ some 15 := by decide

/-- C8, corrected: the catalog-name path issues its streaming GET with
the 15-unit timeout, while the raw-url path issues its streaming GET with
no timeout. -/
theorem c8_amended :
    (∀ (cwd url dir : List Char) (respond : HttpRequest → HttpResponse),
        (download_extract_test_data cwd url dir respond).1.stream = true ∧
        (download_extract_test_data cwd url dir respond).1.timeout = some 15) ∧
    (∀ (cwd url dest : List Char) (destIsDir : Bool)
        (respond : HttpRequest → HttpResponse),
        (download_and_extract_compressed_tar cwd url dest destIsDir respond).1.stream = true ∧
        (download_and_extract_compressed_tar cwd url dest destIsDir respond).1.timeout = none) :=
  ⟨fun _ _ _ _ => ⟨rfl, rfl⟩, fun _ _ _ _ _ => ⟨rfl, rfl⟩⟩

/-- C9: a yaml-based plugin missing the interface key or the name key
makes the lookup raise KeyError, which the handler clause
`except AttributeError or KeyError` does not catch (the clause expression
evaluates to AttributeError alone), so the exception escapes uncaught;
a module-based plugin missing those attributes raises AttributeError and
reaches the typed invalid-plugin report. -/
theorem c9_handler :
    (∀ p : PluginData,
        lookupEntry p "interface".data = none ∨ lookupEntry p "name".data = none →
        validateLookupStep false p = .uncaught .keyError) ∧
    (∀ p : PluginData,
        lookupEntry p "interface".data = none ∨ lookupEntry p "name".data = none →
        validateLookupStep true p = .reportedInvalid) := by
  constructor
  · intro p h
    cases hi : lookupEntry p "interface".data with
    | none => simp [validateLookupStep, lookupNames, getitemOf, hi, pyOrClasses]
    | some v =>
      have hn : lookupEntry p "name".data = none := by
        rcases h with h | h
        · rw [hi] at h
          exact absurd h (by simp)
        · exact h
      simp [validateLookupStep, lookupNames, getitemOf, hi, hn, pyOrClasses]
  · intro p h
    cases hi : lookupEntry p "interface".data with
    | none => simp [validateLookupStep, lookupNames, getattrOf, hi, pyOrClasses]
    | some v =>
      have hn : lookupEntry p "name".data = none := by
        rcases h with h | h
        · rw [hi] at h
          exact absurd h (by simp)
        · exact h
      simp [validateLookupStep, lookupNames, getattrOf, hi, hn, pyOrClasses]

/-- C9 witness: a plugin with no fields at all, validated once as
yaml-based (KeyError escapes) and once as module-based (the typed report
is reached). -/
theorem c9_witness :
    validateLookupStep false ⟨[]⟩ = .uncaught .keyError ∧
    validateLookupStep true ⟨[]⟩ = .reportedInvalid :=
  ⟨c9_handler.1 ⟨[]⟩ (Or.inl (by decide)), c9_handler.2 ⟨[]⟩ (Or.inl (by decide))⟩

/-- C10: when the destination of the raw-url fetch names an existing
directory, the operation never reaches a successful extraction outcome,
and whenever the status check passes it fails exactly at opening the
destination for binary writing. -/
theorem c10_dest_dir :
    (∀ (cwd url dest : List Char) (respond : HttpRequest → HttpResponse)
        (ws : List (List Char × List Char)),
        (download_and_extract_compressed_tar cwd url dest true respond).2 ≠ .extracted ws) ∧
    (∀ (cwd url dest : List Char) (respond : HttpRequest → HttpResponse),
        ¬(400 ≤ (respond ⟨url, true, none⟩).statusCode ∧
            (respond ⟨url, true, none⟩).statusCode < 600) →
        (download_and_extract_compressed_tar cwd url dest true respond).2 =
          .openDestFailed) := by
  constructor
  · intro cwd url dest respond ws
    unfold download_and_extract_compressed_tar
    by_cases h : 400 ≤ (respond ⟨url, true, none⟩).statusCode ∧
        (respond ⟨url, true, none⟩).statusCode < 600
    · simp [h]
    · simp [h]
  · intro cwd url dest respond h
    simp [download_and_extract_compressed_tar, h]

/-- C10 witness: a 200 response against a destination that is an
existing directory fails at the open call and yields no extraction. -/
theorem c10_witness :
    (download_and_extract_compressed_tar "/".data "https://x".data "/dest".data true
      (fun _ => ⟨200, [⟨"a".data, "x".data⟩]⟩)).2 ≠ .extracted [] ∧
    (download_and_extract_compressed_tar "/".data "https://x".data "/dest".data true
      (fun _ => ⟨200, [⟨"a".data, "x".data⟩]⟩)).2 = .openDestFailed :=
  ⟨c10_dest_dir.1 _ _ _ _ [], c10_dest_dir.2 _ _ _ _ (by decide)⟩

end Geoips
